import Mathlib

/-!
Shallow embedding of `get_vm_data.py` (proxmox-export): the VM-inventory
export pipeline.  Python dicts are modelled as insertion-ordered association
lists, Python exceptions as `Except PyErr`, the float arithmetic of the
percent-remaining computation as exact rational arithmetic, and the remote
Proxmox API as an explicit environment record.  Remote calls that the script
performs lazily are passed in as values of that environment.
-/

set_option autoImplicit false

namespace GetVMData

/-- A scalar value held in a Python dict of the script (`Union[int, str]`). -/
inductive Value where
  | s (v : String)
  | i (n : Int)
deriving DecidableEq, Repr

/-- A value of the transient `extrainfo` dict built per disk in
`VM.get_extra_info`: int, float (modelled as an exact rational) or string. -/
inductive EVal where
  | i (n : Int)
  | q (x : ℚ)
  | s (v : String)
deriving DecidableEq, Repr

/-- Python exceptions raised by the modelled code paths. -/
inductive PyErr where
  | keyError (key : String)
  | zeroDivisionError
  | valueError (msg : String)
  | attributeError (msg : String)
deriving DecidableEq, Repr

/-- Decimal digits of the fraction `r / d` (with `0 ≤ r < d`), by repeated
long division, up to a digit budget; stops early when the expansion
terminates. -/
def fracDigits : Nat → Nat → Nat → String
  | _, _, 0 => ""
  | r, d, n + 1 =>
    let r10 := r * 10
    let digit := r10 / d
    let rest := r10 % d
    if rest = 0 then toString digit else toString digit ++ fracDigits rest d n

/-- Rendering of a Python float by `str`, on the idealisation of floats as
exact rationals: integral values print as `n.0` (as Python does), other
values print their decimal expansion up to 17 fractional digits. -/
def pyFloatStr (q : ℚ) : String :=
  let sign := if q.num < 0 then "-" else ""
  let n : Nat := q.num.natAbs
  let d : Nat := q.den
  if n % d = 0 then sign ++ toString (n / d) ++ ".0"
  else sign ++ toString (n / d) ++ "." ++ fracDigits (n % d) d 17

/-- The string interpolation applied to one dict value inside the f-string of
`key_value_pair`. -/
def evalStr : EVal → String
  | EVal.i n => toString n
  | EVal.q x => pyFloatStr x
  | EVal.s v => v

/-- The f-string `key=value` rendering of one dict entry. -/
def kvEntry (kv : String × EVal) : String :=
  kv.1 ++ "=" ++ evalStr kv.2

/-- The loop body of `key_value_pair`: a comma is appended first unless the
accumulator is still empty, then the `key=value` piece. -/
def kvStep (acum : String) (kv : String × EVal) : String :=
  (if acum ≠ "" then acum ++ "," else acum) ++ kvEntry kv

/-- `key_value_pair(data)`: comma-joined `key=value` rendering of a dict,
iterated in insertion order. -/
def key_value_pair (data : List (String × EVal)) : String :=
  data.foldl kvStep ""

/-- One disk entry of an agent filesystem report.  `total-bytes` and
`used-bytes` may be absent from the raw dict, hence `Option`. -/
structure Disk where
  type : String
  mountpoint : String
  totalBytes : Option Int
  usedBytes : Option Int
deriving DecidableEq, Repr

/-- A Python dict of the script: an insertion-ordered association list. -/
abbrev Record := List (String × Value)

/-- `k in d` / `d[k]` on a dict, as the first binding of the key. -/
def lookupRecord (m : Record) (k : String) : Option Value :=
  (m.find? (fun kv => kv.1 == k)).map (fun kv => kv.2)

/-- `d |= {k: v}` on a dict: an existing key keeps its position and gets the
new value, a new key is appended at the end. -/
def updateAssoc (m : Record) (k : String) (v : Value) : Record :=
  if (lookupRecord m k).isSome then
    m.map (fun kv => if kv.1 == k then (k, v) else kv)
  else m ++ [(k, v)]

/-- Accumulator state of the disk loop in `VM.get_extra_info`: the three
running byte sums and the `extraList` dict of per-mountpoint summaries. -/
structure AggState where
  sum_used_bytes : Int
  sum_total_bytes : Int
  sum_unused_bytes : Int
  extraList : Record
deriving DecidableEq, Repr

/-- One iteration of the disk loop of `VM.get_extra_info`: entries of type
CDFS/UDF and entries without `total-bytes` are skipped; a kept entry reads
`used-bytes` (KeyError if absent), computes the unused bytes and the percent
remaining (ZeroDivisionError when `total-bytes` is 0, as in the source,
where the division happens while building the `extrainfo` dict), extends the
three sums, and stores the comma-joined summary under the mountpoint. -/
def processDisk (st : AggState) (d : Disk) : Except PyErr AggState :=
  if d.type ∈ ["CDFS", "UDF"] then
    Except.ok st
  else
    match d.totalBytes with
    | none => Except.ok st
    | some t =>
      match d.usedBytes with
      | none => Except.error (PyErr.keyError "used-bytes")
      | some b =>
        let unused_bytes : Int := t - b
        if t = 0 then Except.error PyErr.zeroDivisionError
        else
          let extrainfo : List (String × EVal) :=
            [("unused-bytes", EVal.i unused_bytes),
             ("used-bytes", EVal.i b),
             ("total-bytes", EVal.i t),
             ("precent-remaining", EVal.q ((unused_bytes : ℚ) / (t : ℚ) * 100)),
             ("filesystem", EVal.s d.type)]
          Except.ok
            { sum_used_bytes := st.sum_used_bytes + b
              sum_total_bytes := st.sum_total_bytes + t
              sum_unused_bytes := st.sum_unused_bytes + unused_bytes
              extraList := updateAssoc st.extraList d.mountpoint
                (Value.s (key_value_pair extrainfo)) }

/-- The whole disk loop, threading the accumulator left to right. -/
def processDisks : AggState → List Disk → Except PyErr AggState
  | st, [] => Except.ok st
  | st, d :: ds =>
    match processDisk st d with
    | Except.error e => Except.error e
    | Except.ok st2 => processDisks st2 ds

/-- The `result` payload of an agent filesystem report: either an error dict
`{class, desc}` or the list of disk entries. -/
inductive FsResult where
  | err (cls : String) (desc : String)
  | disks (ds : List Disk)
deriving DecidableEq, Repr

/-- The raw report dict held in `VM.fs_info`: either it lacks the `result`
key (the initial `{}`, kept on query failure) or it carries one. -/
inductive FsDict where
  | empty
  | withResult (r : FsResult)
deriving DecidableEq, Repr

/-- The exception content of a proxmoxer `ResourceException`. -/
structure ResourceExc where
  content : String
deriving DecidableEq, Repr

/-- `VM.has_agent`: looks up `config["agent"]` (KeyError when the field is
absent) and compares it with the string `"1"`. -/
def has_agent (config : Record) : Except PyErr Bool :=
  match lookupRecord config "agent" with
  | none => Except.error (PyErr.keyError "agent")
  | some v => Except.ok (decide (v = Value.s "1"))

/-- Outcome of `VM.get_fs_info`: the value produced (or the exception
propagated out of `has_agent`) together with whether the remote agent
filesystem query was issued at all. -/
structure FsFetch where
  result : Except PyErr FsDict
  queried : Bool
deriving Repr

/-- `VM.get_fs_info`: returns `{}` without querying when the agent is not
enabled; otherwise issues the query, and on a `ResourceException` logs it
and keeps the initial `{}` (the failure is swallowed). -/
def get_fs_info (config : Record) (fsQuery : Except ResourceExc FsDict) : FsFetch :=
  match has_agent config with
  | Except.error e => { result := Except.error e, queried := false }
  | Except.ok false => { result := Except.ok FsDict.empty, queried := false }
  | Except.ok true =>
    match fsQuery with
    | Except.ok fi => { result := Except.ok fi, queried := true }
    | Except.error _ => { result := Except.ok FsDict.empty, queried := true }

/-- `VM.get_extra_info`: a report without `result` or carrying an error dict
yields the empty mapping; otherwise the disk loop runs and the three sums are
merged into `extraList` at the end (`|=` with the three sum keys). -/
def get_extra_info (config : Record) (fsQuery : Except ResourceExc FsDict) :
    Except PyErr Record :=
  match (get_fs_info config fsQuery).result with
  | Except.error e => Except.error e
  | Except.ok FsDict.empty => Except.ok []
  | Except.ok (FsDict.withResult (FsResult.err _ _)) => Except.ok []
  | Except.ok (FsDict.withResult (FsResult.disks ds)) =>
    match processDisks ⟨0, 0, 0, []⟩ ds with
    | Except.error e => Except.error e
    | Except.ok st =>
      Except.ok (updateAssoc (updateAssoc (updateAssoc st.extraList
        "sum_used_bytes" (Value.i st.sum_used_bytes))
        "sum_total_bytes" (Value.i st.sum_total_bytes))
        "sum_unused_bytes" (Value.i st.sum_unused_bytes))

/-- `{**a, **b}`: keys of `a` in order with `b`'s value on collision, then
the keys of `b` not in `a`, in `b`'s order. -/
def dictMerge (a b : Record) : Record :=
  a.map (fun kv =>
    match lookupRecord b kv.1 with
    | some v => (kv.1, v)
    | none => kv)
  ++ b.filter (fun kv => (lookupRecord a kv.1).isNone)

/-- `VM.get`: the guest's record, `{**config, **extra_info}`. -/
def vmGet (config : Record) (fsQuery : Except ResourceExc FsDict) :
    Except PyErr Record :=
  match get_extra_info config fsQuery with
  | Except.error e => Except.error e
  | Except.ok extra => Except.ok (dictMerge config extra)

/-- The field names of a record, in insertion order (`list(d)`). -/
def recordKeys (r : Record) : List String := r.map (fun kv => kv.1)

/-- The inner loop of `QemuConfig.get_keys` for one record: each field not
already present is appended to the accumulated heading list. -/
def addNewKeys (ks : List String) (r : Record) : List String :=
  r.foldl (fun acc kv => if kv.1 ∈ acc then acc else acc ++ [kv.1]) ks

/-- `QemuConfig.get_keys`: the heading list is seeded with the first
record's field order, then every record (the first included) is scanned for
fields not yet present, which are appended in discovery order. -/
def get_keys : List Record → List String
  | [] => []
  | r :: rs => (r :: rs).foldl addNewKeys (recordKeys r)

/-- The per-record fill of `VMList.normalise`: every schema key the record
lacks is added with value `""`, in schema order, after the existing keys. -/
def normaliseRecord (ks : List String) (r : Record) : Record :=
  r ++ (ks.filter (fun k => !(decide (k ∈ recordKeys r)))).map
    (fun k => (k, Value.s ""))

/-- `VMList.normalise`: back-fills every collected record with the unified
key list computed by `QemuConfig.get_keys`. -/
def normalise (records : List Record) : List Record :=
  records.map (normaliseRecord (get_keys records))

/-- Append a key to an ordered key set unless it is already present. -/
def insKey (acc : List String) (k : String) : List String :=
  if k ∈ acc then acc else acc ++ [k]

/-- Modelled from the spec's schema-computation section: the Unified Schema
is the concatenation of all records' field names, deduplicated keeping the
first discovery of each field. -/
def specSchema (records : List Record) : List String :=
  ((records.map recordKeys).flatten).foldl insKey []

/-- The process environment: variable name to value, `none` when unset. -/
abbrev EnvMap := String → Option String

/-- The `Union[str, bool]` type flowing through `Env.get_or`. -/
inductive StrBool where
  | str (s : String)
  | bool (b : Bool)
deriving DecidableEq, Repr

/-- `Env.get_or`: the source's if-branch evaluates `os.environ[value]` as a
bare expression statement and discards it, so every path falls through to
`return default`. -/
def get_or (env : EnvMap) (value : String) (default : StrBool) : StrBool :=
  match env value with
  | some v => if v ≠ "" then default else default
  | none => default

/-- `Env.must_get`: a required variable; unset or empty raises ValueError. -/
def must_get (env : EnvMap) (value : String) (err : String) : Except PyErr String :=
  match env value with
  | none => Except.error (PyErr.valueError (err ++ " in environment variable " ++ value))
  | some v =>
    if v = "" then
      Except.error (PyErr.valueError (err ++ " in environment variable " ++ value))
    else Except.ok v

/-- `distutils.util.strtobool` applied to the `Union[str, bool]` value the
source hands it: a bool has no `.lower()` (AttributeError); a string is
matched against the canonical truthy/falsy tokens. -/
def strtobool (v : StrBool) : Except PyErr Bool :=
  match v with
  | StrBool.bool _ =>
    Except.error (PyErr.attributeError "bool object has no attribute lower")
  | StrBool.str s =>
    let l := s.toLower
    if l ∈ ["y", "yes", "t", "true", "on", "1"] then Except.ok true
    else if l ∈ ["n", "no", "f", "false", "off", "0"] then Except.ok false
    else Except.error (PyErr.valueError ("invalid truth value " ++ s))

/-- `Env.get_or_truth`: the value of `Env.get_or` is returned directly when
it is a bool; a string would be re-fed to `Env.get_or` (with the string as
the variable name) and the result passed to `strtobool`. -/
def get_or_truth (env : EnvMap) (value : String) (defaultVal : Bool) :
    Except PyErr Bool :=
  match get_or env value (StrBool.bool defaultVal) with
  | StrBool.bool b => Except.ok b
  | StrBool.str s => strtobool (get_or env s (StrBool.bool defaultVal))

/-- The configuration record filled by `Config.from_env`. -/
structure Config where
  url : String
  user : String
  password : String
  verify_ssl : Bool
  service : StrBool
deriving DecidableEq, Repr

/-- `Config.from_env` (run by `Config.__init__`): the three required
variables, then the TLS flag through `Env.get_or_truth` with default
`False`, then the service name through `Env.get_or` with default `"PVE"`. -/
def Config.from_env (env : EnvMap) : Except PyErr Config := do
  let url ← must_get env "PROX_URL" "Must provide URL"
  let user ← must_get env "PROX_USER" "Must provide user"
  let password ← must_get env "PROX_PASSWORD" "Must provide password"
  let verify_ssl ← get_or_truth env "PROX_SSL" false
  let service := get_or env "PROX_SERVICE" (StrBool.str "PVE")
  pure { url := url, user := user, password := password,
         verify_ssl := verify_ssl, service := service }

/-- A concrete process environment built from a binding list. -/
def envOf (l : List (String × String)) : EnvMap := fun k => List.lookup k l

/-- The remote Proxmox API as seen by one run: the node list, the per-node
guest list as `(vmid, status)` pairs, and per-guest configuration and
agent filesystem query results. -/
structure ProxEnv where
  nodes : List String
  qemuList : String → List (Int × String)
  vmConfig : String → Int → Record
  fsQuery : String → Int → Except ResourceExc FsDict

/-- The guest loop of `VMList.get` for one node: non-running guests are
skipped with a log line; each running guest's record is built by `VM.get`
and appended (exceptions out of `VM.get` propagate). -/
def collectVMs (penv : ProxEnv) (node : String) :
    List (Int × String) → List Record → Except PyErr (List Record)
  | [], acc => Except.ok acc
  | (vmid, status) :: rest, acc =>
    if status ≠ "running" then collectVMs penv node rest acc
    else
      match vmGet (penv.vmConfig node vmid) (penv.fsQuery node vmid) with
      | Except.error e => Except.error e
      | Except.ok data => collectVMs penv node rest (acc ++ [data])

/-- The node loop of `VMList.get`. -/
def collectNodes (penv : ProxEnv) :
    List String → List Record → Except PyErr (List Record)
  | [], acc => Except.ok acc
  | n :: rest, acc =>
    match collectVMs penv n (penv.qemuList n) acc with
    | Except.error e => Except.error e
    | Except.ok acc2 => collectNodes penv rest acc2

/-- The record-collection phase of `VMList.get` (both loops, empty
accumulator). -/
def collectRecords (penv : ProxEnv) : Except PyErr (List Record) :=
  collectNodes penv penv.nodes []

/-- `VMList.get` with an explicit fuel bound on the call depth, mirroring
the source's mutual recursion: a non-empty cached `self.list` is returned as
is; otherwise the records are collected and `normalise` runs, and
`normalise` constructs a `QemuConfig`, whose `__init__` calls `VMList.get`
again on the now-filled cache; `QemuConfig.__init__` raises
`ValueError("VM list empty")` when that inner call yields zero records.
`none` means the fuel ran out, i.e. the source recurses at that depth. -/
def vmListGetFuel (penv : ProxEnv) : Nat → List Record → Option (Except PyErr (List Record))
  | 0, _ => none
  | fuel + 1, cache =>
    if cache.length ≠ 0 then some (Except.ok cache)
    else
      match collectRecords penv with
      | Except.error e => some (Except.error e)
      | Except.ok lst =>
        match vmListGetFuel penv fuel lst with
        | none => none
        | some (Except.error e) => some (Except.error e)
        | some (Except.ok got) =>
          if got.length = 0 then
            some (Except.error (PyErr.valueError "VM list empty"))
          else some (Except.ok (lst.map (normaliseRecord (get_keys got))))

/-- `VMList.keys` with the same fuel bound: it constructs a `QemuConfig`
(whose `__init__` calls `VMList.get` on the current cache and raises
`ValueError("VM list empty")` on zero records) and returns `get_keys`. -/
def keysFuel (penv : ProxEnv) (fuel : Nat) (cache : List Record) :
    Option (Except PyErr (List String)) :=
  match vmListGetFuel penv fuel cache with
  | none => none
  | some (Except.error e) => some (Except.error e)
  | some (Except.ok got) =>
    if got.length = 0 then some (Except.error (PyErr.valueError "VM list empty"))
    else some (Except.ok (get_keys got))

/-- Outcome of the file write attempted inside `CSV.output`. -/
inductive WriteOutcome where
  | success
  | ioError (msg : String)
deriving DecidableEq, Repr

/-- `CSV.output`: an `IOError` during the write is caught and logged
(`logger.exception`), and the method returns normally — the failure is not
re-raised and never reaches the caller. -/
def CSV.output (w : WriteOutcome) : Except PyErr Unit :=
  match w with
  | WriteOutcome.success => Except.ok ()
  | WriteOutcome.ioError _ => Except.ok ()

/-- `main` with the same fuel bound: configuration load, the `VMList`
constructor's empty-node-list check, `vm.get()`, `vm.keys()` on the filled
cache, then `CSV.output`.  A returned `Except.ok` is a normal process exit
(exit code 0); `Except.error` is an uncaught exception (non-zero exit). -/
def mainFuel (env : EnvMap) (penv : ProxEnv) (w : WriteOutcome) (fuel : Nat) :
    Option (Except PyErr Unit) :=
  match Config.from_env env with
  | Except.error e => some (Except.error e)
  | Except.ok _ =>
    if penv.nodes.length = 0 then
      some (Except.error (PyErr.valueError "Node list empty"))
    else
      match vmListGetFuel penv fuel [] with
      | none => none
      | some (Except.error e) => some (Except.error e)
      | some (Except.ok data) =>
        match keysFuel penv fuel data with
        | none => none
        | some (Except.error e) => some (Except.error e)
        | some (Except.ok _) => some (CSV.output w)

/-- A cluster with one node whose single guest is stopped: zero in-scope
guests are collected. -/
def envNoGuests : ProxEnv :=
  ⟨["n1"], fun _ => [(100, "stopped")], fun _ _ => [],
    fun _ _ => Except.ok FsDict.empty⟩

theorem append_ne_empty_right (s t : String) (h : t ≠ "") : s ++ t ≠ "" := by
  intro he
  apply h
  apply String.ext
  apply List.length_eq_zero.mp
  have h2 : (s ++ t).length = 0 := by rw [he]; rfl
  rw [String.length_append] at h2
  have h3 : t.length = 0 := by omega
  exact h3

theorem append_ne_empty_left (s t : String) (h : s ≠ "") : s ++ t ≠ "" := by
  intro he
  apply h
  apply String.ext
  apply List.length_eq_zero.mp
  have h2 : (s ++ t).length = 0 := by rw [he]; rfl
  rw [String.length_append] at h2
  have h3 : s.length = 0 := by omega
  exact h3

theorem kvEntry_ne_empty (kv : String × EVal) : kvEntry kv ≠ "" := by
  unfold kvEntry
  exact append_ne_empty_left _ _ (append_ne_empty_right _ _ (by decide))

theorem kvStep_empty (kv : String × EVal) : kvStep "" kv = kvEntry kv := by
  unfold kvStep
  rw [if_neg (fun h => h rfl)]
  rfl

theorem kvStep_of_ne (acum : String) (kv : String × EVal) (h : acum ≠ "") :
    kvStep acum kv = acum ++ "," ++ kvEntry kv := by
  unfold kvStep
  rw [if_pos h]

/-- `key_value_pair` on a five-entry dict is the comma-join of the five
`key=value` pieces. -/
theorem key_value_pair_five (p1 p2 p3 p4 p5 : String × EVal) :
    key_value_pair [p1, p2, p3, p4, p5] =
      kvEntry p1 ++ "," ++ kvEntry p2 ++ "," ++ kvEntry p3 ++ "," ++
        kvEntry p4 ++ "," ++ kvEntry p5 := by
  have h1 : kvEntry p1 ≠ "" := kvEntry_ne_empty p1
  have h2 : kvEntry p1 ++ "," ++ kvEntry p2 ≠ "" :=
    append_ne_empty_right _ _ (kvEntry_ne_empty p2)
  have h3 : kvEntry p1 ++ "," ++ kvEntry p2 ++ "," ++ kvEntry p3 ≠ "" :=
    append_ne_empty_right _ _ (kvEntry_ne_empty p3)
  have h4 : kvEntry p1 ++ "," ++ kvEntry p2 ++ "," ++ kvEntry p3 ++ "," ++ kvEntry p4 ≠ "" :=
    append_ne_empty_right _ _ (kvEntry_ne_empty p4)
  unfold key_value_pair
  rw [List.foldl_cons, kvStep_empty]
  rw [List.foldl_cons, kvStep_of_ne _ _ h1]
  rw [List.foldl_cons, kvStep_of_ne _ _ h2]
  rw [List.foldl_cons, kvStep_of_ne _ _ h3]
  rw [List.foldl_cons, kvStep_of_ne _ _ h4]
  rw [List.foldl_nil]

/-- C3: a kept disk entry (type not CDFS/UDF, `total-bytes` present and
non-zero) emits under its mountpoint exactly the comma-joined string
`unused-bytes=<u>,used-bytes=<b>,total-bytes=<t>,precent-remaining=<p>,filesystem=<type>`
in that key order, with `u = t - b` and `p = u / t * 100`, and adds `b`,
`t`, `u` to the three guest-wide byte sums. -/
theorem c3_kept_disk_summary (st : AggState) (ty mp : String) (t b : Int)
    (hty : ty ∉ ["CDFS", "UDF"]) (ht : t ≠ 0) :
    processDisk st ⟨ty, mp, some t, some b⟩ =
      Except.ok
        { sum_used_bytes := st.sum_used_bytes + b
          sum_total_bytes := st.sum_total_bytes + t
          sum_unused_bytes := st.sum_unused_bytes + (t - b)
          extraList := updateAssoc st.extraList mp (Value.s
            ("unused-bytes=" ++ toString (t - b) ++ "," ++
             ("used-bytes=" ++ toString b) ++ "," ++
             ("total-bytes=" ++ toString t) ++ "," ++
             ("precent-remaining=" ++
               pyFloatStr (((t - b : Int) : ℚ) / ((t : Int) : ℚ) * 100)) ++ "," ++
             ("filesystem=" ++ ty))) } := by
  simp only [processDisk, if_neg hty, if_neg ht, key_value_pair_five]
  rfl

/-- Witness for C3 at Scenario B: one ext4 disk mounted at `/` with 1000
total bytes and 400 used bytes. -/
theorem c3_witness :
    processDisk ⟨0, 0, 0, []⟩ ⟨"ext4", "/", some 1000, some 400⟩ =
      Except.ok ⟨400, 1000, 600,
        [("/", Value.s
          "unused-bytes=600,used-bytes=400,total-bytes=1000,precent-remaining=60.0,filesystem=ext4")]⟩ := by
  have h := c3_kept_disk_summary ⟨0, 0, 0, []⟩ "ext4" "/" 1000 400 (by decide) (by decide)
  rw [h]
  norm_num
  rfl

theorem processDisk_excluded (st : AggState) (d : Disk)
    (h : d.type ∈ ["CDFS", "UDF"] ∨ d.totalBytes = none) :
    processDisk st d = Except.ok st := by
  unfold processDisk
  by_cases hty : d.type ∈ ["CDFS", "UDF"]
  · rw [if_pos hty]
  · rcases h with h | h
    · exact absurd h hty
    · rw [if_neg hty, h]

theorem processDisks_skip (d : Disk)
    (h : d.type ∈ ["CDFS", "UDF"] ∨ d.totalBytes = none) :
    ∀ (xs : List Disk) (st : AggState) (ys : List Disk),
      processDisks st (xs ++ d :: ys) = processDisks st (xs ++ ys) := by
  intro xs
  induction xs with
  | nil =>
    intro st ys
    show processDisks st (d :: ys) = processDisks st ys
    simp only [processDisks]
    rw [processDisk_excluded st d h]
  | cons x rest ih =>
    intro st ys
    simp only [List.cons_append, processDisks]
    cases hx : processDisk st x with
    | error e => rfl
    | ok st2 => exact ih st2 ys

/-- C7: a disk entry of type CDFS/UDF, or one missing `total-bytes`, emits
no per-mountpoint field and contributes nothing to the three byte sums: the
loop step returns the accumulator unchanged, and removing the entry from the
disk list leaves the whole aggregation unchanged. -/
theorem c7_excluded_entry_no_effect (st : AggState) (d : Disk)
    (h : d.type ∈ ["CDFS", "UDF"] ∨ d.totalBytes = none) :
    processDisk st d = Except.ok st ∧
      ∀ (xs ys : List Disk) (st0 : AggState),
        processDisks st0 (xs ++ d :: ys) = processDisks st0 (xs ++ ys) :=
  ⟨processDisk_excluded st d h, fun xs ys st0 => processDisks_skip d h xs st0 ys⟩

/-- Witness for C7: a CDFS entry and an entry missing `total-bytes`, both
alone and inserted after a kept ext4 disk. -/
theorem c7_witness :
    processDisk ⟨0, 0, 0, []⟩ ⟨"CDFS", "/media/cd", some 100, some 1⟩ =
        Except.ok ⟨0, 0, 0, []⟩ ∧
      processDisks ⟨0, 0, 0, []⟩
          ([⟨"ext4", "/", some 10, some 5⟩] ++ ⟨"vfat", "/boot", none, some 3⟩ :: []) =
        processDisks ⟨0, 0, 0, []⟩ ([⟨"ext4", "/", some 10, some 5⟩] ++ []) := by
  have h1 := c7_excluded_entry_no_effect ⟨0, 0, 0, []⟩
    ⟨"CDFS", "/media/cd", some 100, some 1⟩ (Or.inl (by decide))
  have h2 := c7_excluded_entry_no_effect ⟨0, 0, 0, []⟩
    ⟨"vfat", "/boot", none, some 3⟩ (Or.inr rfl)
  exact ⟨h1.1, h2.2 [⟨"ext4", "/", some 10, some 5⟩] [] ⟨0, 0, 0, []⟩⟩

/-- C5: what the source actually does on a disk entry with `total-bytes = 0`
(agent enabled, valid result): the percent-remaining division raises
ZeroDivisionError and `get_extra_info` aborts — the entry is not skipped. -/
theorem c5_zero_total_bytes_faults :
    get_extra_info [("agent", Value.s "1")]
        (Except.ok (FsDict.withResult (FsResult.disks [⟨"ext4", "/", some 0, some 0⟩]))) =
      Except.error PyErr.zeroDivisionError := by
  rfl

/-- C6 counterexample: a configuration with no `agent` field at all makes
`get_extra_info` raise KeyError("agent") instead of returning an empty
mapping. -/
theorem c6_counterexample :
    get_extra_info [("name", Value.s "a")] (Except.ok FsDict.empty) =
        Except.error (PyErr.keyError "agent") ∧
      get_extra_info [("name", Value.s "a")] (Except.ok FsDict.empty) ≠
        Except.ok [] := by
  refine ⟨rfl, ?_⟩
  intro hcon
  rw [show get_extra_info [("name", Value.s "a")] (Except.ok FsDict.empty) =
      Except.error (PyErr.keyError "agent") from rfl] at hcon
  exact Except.noConfusion hcon

/-- C6 (amended): for every guest whose configuration holds an `agent`
field with a value other than `"1"`, `get_extra_info` returns the empty
mapping and the agent filesystem query is never issued. -/
theorem c6_not_agent_no_query (config : Record) (fsq : Except ResourceExc FsDict)
    (v : Value) (hv : lookupRecord config "agent" = some v)
    (hne : v ≠ Value.s "1") :
    get_extra_info config fsq = Except.ok [] ∧
      (get_fs_info config fsq).queried = false := by
  have ha : has_agent config = Except.ok false := by
    unfold has_agent
    rw [hv]
    show Except.ok (decide (v = Value.s "1")) = Except.ok false
    rw [decide_eq_false hne]
  have hfs : get_fs_info config fsq =
      { result := Except.ok FsDict.empty, queried := false } := by
    unfold get_fs_info
    rw [ha]
  constructor
  · unfold get_extra_info
    rw [hfs]
  · rw [hfs]

/-- Witness for C6 (amended): `agent = "0"`. -/
theorem c6_witness :
    get_extra_info [("agent", Value.s "0")] (Except.ok FsDict.empty) = Except.ok [] ∧
      (get_fs_info [("agent", Value.s "0")] (Except.ok FsDict.empty)).queried = false :=
  c6_not_agent_no_query _ _ (Value.s "0") rfl (by decide)

theorem map_merge_nil (a : Record) :
    List.map (fun kv : String × Value =>
      match lookupRecord ([] : Record) kv.1 with
      | some v => (kv.1, v)
      | none => kv) a = a := by
  induction a with
  | nil => rfl
  | cons kv rest ih =>
    simp only [List.map_cons, ih]
    rfl

theorem dictMerge_empty_right (a : Record) : dictMerge a [] = a := by
  unfold dictMerge
  rw [map_merge_nil]
  rw [show List.filter (fun kv : String × Value => (lookupRecord a kv.1).isNone) [] = []
    from rfl]
  exact List.append_nil a

/-- C8: when the agent is enabled but the filesystem query raises a
`ResourceException`, the exception is swallowed: the query was issued,
`get_fs_info` returns the empty report, `get_extra_info` returns the empty
mapping, the guest's record is its configuration unchanged, and a run whose
single running guest hits this failure still completes with that record. -/
theorem c8_query_failure_swallowed (config : Record) (e : ResourceExc)
    (h : lookupRecord config "agent" = some (Value.s "1")) :
    get_fs_info config (Except.error e) =
        { result := Except.ok FsDict.empty, queried := true } ∧
      get_extra_info config (Except.error e) = Except.ok [] ∧
      vmGet config (Except.error e) = Except.ok config ∧
      collectRecords ⟨["n1"], fun _ => [(100, "running")], fun _ _ => config,
          fun _ _ => Except.error e⟩ = Except.ok [config] := by
  have ha : has_agent config = Except.ok true := by
    unfold has_agent
    rw [h]
    rfl
  have hfs : get_fs_info config (Except.error e) =
      { result := Except.ok FsDict.empty, queried := true } := by
    unfold get_fs_info
    rw [ha]
  have hextra : get_extra_info config (Except.error e) = Except.ok [] := by
    unfold get_extra_info
    rw [hfs]
  have hvm : vmGet config (Except.error e) = Except.ok config := by
    unfold vmGet
    rw [hextra]
    show Except.ok (dictMerge config []) = Except.ok config
    rw [dictMerge_empty_right]
  refine ⟨hfs, hextra, hvm, ?_⟩
  unfold collectRecords collectNodes collectVMs
  rw [if_neg (fun hc => hc rfl), hvm]
  rfl

/-- Witness for C8: one guest with `agent = "1"` whose query fails. -/
theorem c8_witness :
    get_fs_info [("agent", Value.s "1")] (Except.error ⟨"boom"⟩) =
        { result := Except.ok FsDict.empty, queried := true } ∧
      get_extra_info [("agent", Value.s "1")] (Except.error ⟨"boom"⟩) = Except.ok [] ∧
      vmGet [("agent", Value.s "1")] (Except.error ⟨"boom"⟩) =
        Except.ok [("agent", Value.s "1")] ∧
      collectRecords ⟨["n1"], fun _ => [(100, "running")],
          fun _ _ => [("agent", Value.s "1")], fun _ _ => Except.error ⟨"boom"⟩⟩ =
        Except.ok [[("agent", Value.s "1")]] :=
  c8_query_failure_swallowed [("agent", Value.s "1")] ⟨"boom"⟩ rfl

theorem mem_addNewKeys (ks : List String) (r : Record) (k : String) :
    k ∈ addNewKeys ks r ↔ k ∈ ks ∨ k ∈ recordKeys r := by
  induction r generalizing ks with
  | nil =>
    simp [addNewKeys, recordKeys]
  | cons kv rest ih =>
    rw [show addNewKeys ks (kv :: rest) =
        addNewKeys (if kv.1 ∈ ks then ks else ks ++ [kv.1]) rest from rfl]
    rw [ih]
    by_cases hk : kv.1 ∈ ks
    · rw [if_pos hk]
      simp only [recordKeys, List.map_cons, List.mem_cons]
      constructor
      · rintro (h | h)
        · exact Or.inl h
        · exact Or.inr (Or.inr h)
      · rintro (h | h | h)
        · exact Or.inl h
        · exact Or.inl (h ▸ hk)
        · exact Or.inr h
    · rw [if_neg hk]
      simp only [recordKeys, List.map_cons, List.mem_cons, List.mem_append,
        List.mem_singleton]
      tauto

theorem mem_foldl_addNewKeys_of_mem (l : List Record) :
    ∀ ks : List String, ∀ k, k ∈ ks → k ∈ List.foldl addNewKeys ks l := by
  induction l with
  | nil =>
    intro ks k h
    simpa using h
  | cons r rest ih =>
    intro ks k h
    rw [List.foldl_cons]
    exact ih _ k ((mem_addNewKeys ks r k).mpr (Or.inl h))

theorem mem_foldl_addNewKeys_of_record (l : List Record) :
    ∀ ks : List String, ∀ r ∈ l, ∀ k ∈ recordKeys r,
      k ∈ List.foldl addNewKeys ks l := by
  induction l with
  | nil =>
    intro ks r hr
    exact absurd hr (List.not_mem_nil r)
  | cons x rest ih =>
    intro ks r hr k hk
    rw [List.foldl_cons]
    rcases List.mem_cons.mp hr with h | h
    · subst h
      exact mem_foldl_addNewKeys_of_mem rest _ k ((mem_addNewKeys ks r k).mpr (Or.inr hk))
    · exact ih _ r h k hk

theorem recordKeys_subset_get_keys (records : List Record) (r : Record)
    (hr : r ∈ records) (k : String) (hk : k ∈ recordKeys r) :
    k ∈ get_keys records := by
  cases records with
  | nil => exact absurd hr (List.not_mem_nil r)
  | cons r0 rs =>
    unfold get_keys
    exact mem_foldl_addNewKeys_of_record (r0 :: rs) (recordKeys r0) r hr k hk

theorem recordKeys_normaliseRecord (ks : List String) (r : Record) (k : String) :
    k ∈ recordKeys (normaliseRecord ks r) ↔ k ∈ recordKeys r ∨ k ∈ ks := by
  unfold normaliseRecord
  rw [show recordKeys (r ++ (ks.filter (fun k0 => !(decide (k0 ∈ recordKeys r)))).map
      (fun k0 => (k0, Value.s ""))) =
    recordKeys r ++ recordKeys ((ks.filter (fun k0 => !(decide (k0 ∈ recordKeys r)))).map
      (fun k0 => (k0, Value.s ""))) from List.map_append _ _ _]
  rw [show recordKeys ((ks.filter (fun k0 => !(decide (k0 ∈ recordKeys r)))).map
      (fun k0 => (k0, Value.s ""))) =
    ks.filter (fun k0 => !(decide (k0 ∈ recordKeys r))) from by
      unfold recordKeys
      rw [List.map_map]
      exact List.map_id _]
  rw [List.mem_append, List.mem_filter]
  constructor
  · rintro (h | ⟨h, _⟩)
    · exact Or.inl h
    · exact Or.inr h
  · rintro (h | h)
    · exact Or.inl h
    · by_cases hr : k ∈ recordKeys r
      · exact Or.inl hr
      · exact Or.inr ⟨h, by simpa using hr⟩

theorem lookup_fill (l : List String) (k : String) (hk : k ∈ l) :
    lookupRecord (l.map (fun k0 => (k0, Value.s ""))) k = some (Value.s "") := by
  induction l with
  | nil => cases hk
  | cons a rest ih =>
    by_cases hak : a = k
    · subst hak
      unfold lookupRecord
      rw [List.map_cons, List.find?_cons_of_pos _ (by simp)]
      rfl
    · unfold lookupRecord
      rw [List.map_cons, List.find?_cons_of_neg _ (by simpa using hak)]
      rcases List.mem_cons.mp hk with h | h
      · exact absurd h.symm hak
      · exact ih h

theorem lookup_append_right (a b : Record) (k : String) (ha : k ∉ recordKeys a) :
    lookupRecord (a ++ b) k = lookupRecord b k := by
  unfold lookupRecord
  rw [List.find?_append]
  have hnone : a.find? (fun kv => kv.1 == k) = none := by
    rw [List.find?_eq_none]
    intro kv hkv hbeq
    apply ha
    rw [← eq_of_beq hbeq]
    exact List.mem_map_of_mem _ hkv
  rw [hnone]
  rfl

theorem lookup_normaliseRecord_absent (ks : List String) (r : Record) (k : String)
    (hks : k ∈ ks) (hr : k ∉ recordKeys r) :
    lookupRecord (normaliseRecord ks r) k = some (Value.s "") := by
  unfold normaliseRecord
  rw [lookup_append_right r _ k hr]
  apply lookup_fill
  rw [List.mem_filter]
  exact ⟨hks, by simpa using hr⟩

/-- C1: after `normalise`, every collected record has exactly the schema's
field-name set (membership in its keys coincides with membership in
`get_keys`), it is an element of the normalised list, and every schema field
that was originally absent from the record holds the empty string. -/
theorem c1_normalise_schema (records : List Record) (r : Record)
    (hr : r ∈ records) (k : String) :
    (k ∈ recordKeys (normaliseRecord (get_keys records) r) ↔ k ∈ get_keys records) ∧
      normaliseRecord (get_keys records) r ∈ normalise records ∧
      (k ∈ get_keys records → k ∉ recordKeys r →
        lookupRecord (normaliseRecord (get_keys records) r) k = some (Value.s "")) := by
  refine ⟨?_, by unfold normalise; exact List.mem_map_of_mem _ hr,
    fun h1 h2 => lookup_normaliseRecord_absent _ _ _ h1 h2⟩
  rw [recordKeys_normaliseRecord]
  constructor
  · rintro (h | h)
    · exact recordKeys_subset_get_keys records r hr k h
    · exact h
  · exact Or.inr

/-- Witness for C1 at Scenario C: guest one's record gains `notes = ""`,
and its key set equals the schema. -/
theorem c1_witness :
    lookupRecord (normaliseRecord
        (get_keys [[("name", Value.s "a")], [("name", Value.s "b"), ("notes", Value.s "x")]])
        [("name", Value.s "a")]) "notes" = some (Value.s "") := by
  have h := c1_normalise_schema
    [[("name", Value.s "a")], [("name", Value.s "b"), ("notes", Value.s "x")]]
    [("name", Value.s "a")] (by decide) "notes"
  exact h.2.2 (by decide) (by decide)

theorem addNewKeys_eq_foldl_insKey (r : Record) :
    ∀ ks : List String, addNewKeys ks r = (recordKeys r).foldl insKey ks := by
  induction r with
  | nil => intro ks; rfl
  | cons kv rest ih =>
    intro ks
    rw [show addNewKeys ks (kv :: rest) =
        addNewKeys (if kv.1 ∈ ks then ks else ks ++ [kv.1]) rest from rfl]
    rw [ih]
    rfl

theorem foldl_addNewKeys_eq (l : List Record) :
    ∀ ks : List String,
      List.foldl addNewKeys ks l = ((l.map recordKeys).flatten).foldl insKey ks := by
  induction l with
  | nil => intro ks; rfl
  | cons r rest ih =>
    intro ks
    rw [List.foldl_cons, addNewKeys_eq_foldl_insKey, ih]
    rw [show ((r :: rest).map recordKeys).flatten =
        recordKeys r ++ (rest.map recordKeys).flatten from by
      rw [List.map_cons, List.flatten_cons]]
    rw [List.foldl_append]

theorem foldl_insKey_of_subset (ks : List String) (l : List String)
    (h : ∀ k ∈ l, k ∈ ks) : l.foldl insKey ks = ks := by
  induction l with
  | nil => rfl
  | cons a rest ih =>
    rw [List.foldl_cons,
      show insKey ks a = ks from if_pos (h a (List.mem_cons_self a rest))]
    exact ih (fun k hk => h k (List.mem_cons_of_mem a hk))

theorem foldl_insKey_nodup (l : List String) :
    ∀ acc : List String, (∀ k ∈ l, k ∉ acc) → l.Nodup →
      l.foldl insKey acc = acc ++ l := by
  induction l with
  | nil =>
    intro acc _ _
    exact (List.append_nil acc).symm
  | cons a rest ih =>
    intro acc h hd
    rw [List.foldl_cons,
      show insKey acc a = acc ++ [a] from if_neg (h a (List.mem_cons_self a rest))]
    rw [ih (acc ++ [a]) ?_ (List.nodup_cons.mp hd).2]
    · rw [List.append_assoc]
      rfl
    · intro k hk
      rw [List.mem_append, List.mem_singleton]
      rintro (hacc | hka)
      · exact h k (List.mem_cons_of_mem a hk) hacc
      · exact (List.nodup_cons.mp hd).1 (hka ▸ hk)

theorem foldl_insKey_extend (l : List String) :
    ∀ acc : List String, ∃ t, l.foldl insKey acc = acc ++ t := by
  induction l with
  | nil =>
    intro acc
    exact ⟨[], (List.append_nil acc).symm⟩
  | cons a rest ih =>
    intro acc
    rw [List.foldl_cons]
    by_cases ha : a ∈ acc
    · rw [show insKey acc a = acc from if_pos ha]
      exact ih acc
    · rw [show insKey acc a = acc ++ [a] from if_neg ha]
      rcases ih (acc ++ [a]) with ⟨t, ht⟩
      exact ⟨[a] ++ t, by rw [ht, List.append_assoc]⟩

/-- C4: the Unified Schema produced by `get_keys` starts with the first
collected record's field order and appends each later record's unseen
fields in first-discovery order — it equals the spec-side first-discovery
deduplication of all field names, and the first record's keys come first;
Scenario C yields `[name, notes]`. -/
theorem c4_schema_discovery_order (r : Record) (rs : List Record)
    (hnd : (recordKeys r).Nodup) :
    get_keys (r :: rs) = specSchema (r :: rs) ∧
      (∃ t, get_keys (r :: rs) = recordKeys r ++ t) ∧
      get_keys [[("name", Value.s "a")], [("name", Value.s "b"), ("notes", Value.s "x")]] =
        ["name", "notes"] := by
  have hgk : get_keys (r :: rs) =
      ((rs.map recordKeys).flatten).foldl insKey (recordKeys r) := by
    rw [show get_keys (r :: rs) = List.foldl addNewKeys (recordKeys r) (r :: rs) from rfl]
    rw [List.foldl_cons, addNewKeys_eq_foldl_insKey,
      foldl_insKey_of_subset _ _ (fun k hk => hk), foldl_addNewKeys_eq]
  refine ⟨?_, ?_, by decide⟩
  · rw [hgk]
    unfold specSchema
    rw [show ((r :: rs).map recordKeys).flatten =
        recordKeys r ++ (rs.map recordKeys).flatten from by
      rw [List.map_cons, List.flatten_cons]]
    rw [List.foldl_append,
      foldl_insKey_nodup (recordKeys r) [] (fun k _ hk => (List.not_mem_nil k) hk) hnd]
    rw [List.nil_append]
  · rw [hgk]
    exact foldl_insKey_extend _ (recordKeys r)

/-- Witness for C4 at Scenario C: two records `{name}` and `{name, notes}`
give the schema `[name, notes]`. -/
theorem c4_witness :
    get_keys [[("name", Value.s "a")], [("name", Value.s "b"), ("notes", Value.s "x")]] =
      ["name", "notes"] :=
  (c4_schema_discovery_order [("name", Value.s "a")]
    [[("name", Value.s "b"), ("notes", Value.s "x")]] (by decide)).2.2

/-- C2: what the source does when writing the export file fails: the
`IOError` is caught and logged inside `CSV.output`, which returns normally,
and a run whose pipeline succeeded but whose write failed still finishes
with a normal exit (exit code 0) — the failure is swallowed, no output file
is produced, and nothing aborts. -/
theorem c2_write_failure_swallowed :
    CSV.output (WriteOutcome.ioError "disk full") = Except.ok () ∧
      mainFuel (envOf [("PROX_URL", "u"), ("PROX_USER", "us"), ("PROX_PASSWORD", "p")])
        ⟨["n1"], fun _ => [(100, "running")],
         fun _ _ => [("name", Value.s "a"), ("agent", Value.s "0")],
         fun _ _ => Except.ok FsDict.empty⟩
        (WriteOutcome.ioError "disk full") 2 = some (Except.ok ()) :=
  ⟨rfl, rfl⟩

theorem vmListGetFuel_none_of_no_guests :
    ∀ fuel : Nat, vmListGetFuel envNoGuests fuel [] = none := by
  intro fuel
  induction fuel with
  | zero => rfl
  | succ n ih =>
    rw [show vmListGetFuel envNoGuests (n + 1) [] =
        (match vmListGetFuel envNoGuests n [] with
          | none => none
          | some (Except.error e) => some (Except.error e)
          | some (Except.ok got) =>
            if got.length = 0 then some (Except.error (PyErr.valueError "VM list empty"))
            else some (Except.ok (List.map (normaliseRecord (get_keys got)) ([] : List Record))))
        from rfl]
    rw [ih]

/-- C9: what the source does when zero running guests were collected and
`VMList.keys` is invoked: `VMList.get` re-collects, calls `normalise`,
which constructs a `QemuConfig`, whose `__init__` calls `VMList.get` again
on the still-empty cache — for every fuel bound the call is still recursing
(`none`), so it never terminates (RecursionError in CPython) and in
particular never raises the `ValueError("VM list empty")` empty-list
error. -/
theorem c9_keys_diverges_on_zero_guests (fuel : Nat) :
    keysFuel envNoGuests fuel [] = none := by
  unfold keysFuel
  rw [vmListGetFuel_none_of_no_guests fuel]

/-- C10: what the source does with the TLS-verification variable:
`Env.get_or` evaluates `os.environ[value]` without returning it, so
`Env.get_or_truth` sees the boolean default on every environment and
`verify_ssl` is `false` even when `PROX_SSL` holds a truthy token such as
`"yes"` or `"1"`. -/
theorem c10_verify_ssl_always_false :
    Config.from_env (envOf [("PROX_URL", "u"), ("PROX_USER", "us"),
        ("PROX_PASSWORD", "p"), ("PROX_SSL", "yes")]) =
      Except.ok ⟨"u", "us", "p", false, StrBool.str "PVE"⟩ ∧
      Config.from_env (envOf [("PROX_URL", "u"), ("PROX_USER", "us"),
          ("PROX_PASSWORD", "p"), ("PROX_SSL", "1")]) =
        Except.ok ⟨"u", "us", "p", false, StrBool.str "PVE"⟩ ∧
      ∀ env : EnvMap, get_or_truth env "PROX_SSL" false = Except.ok false := by
  refine ⟨rfl, rfl, ?_⟩
  intro env
  have hdef : ∀ (value : String) (d : StrBool), get_or env value d = d := by
    intro value d
    unfold get_or
    cases env value with
    | none => rfl
    | some v =>
      show (if v ≠ "" then d else d) = d
      rw [ite_self]
  unfold get_or_truth
  rw [hdef]

end GetVMData
